import Mathlib

/-!
# Verification of the grpc transport specification

A shallow embedding of the transport package of `publica-project/grpc-go`.
The repository snapshot under verification contains `transport/go16.go`
(`ContextErr`) and the transport test-suite; the remaining transport
internals (the HTTP/2 client/server engines, flow controller, receive
buffers and header utilities) are exercised by those tests but their
sources are not part of the snapshot, so they are modelled here from the
specification's own words, each such definition carrying a
`Modelled from the spec:` doc comment.
-/

namespace GrpcTransport

/-- RPC status codes of the `codes` package. -/
inductive Code where
  | ok
  | canceled
  | unknown
  | invalidArgument
  | deadlineExceeded
  | notFound
  | alreadyExists
  | permissionDenied
  | resourceExhausted
  | failedPrecondition
  | aborted
  | outOfRange
  | unimplemented
  | internal
  | unavailable
  | dataLoss
  | unauthenticated
deriving DecidableEq, Repr

/-- `StreamError` of the transport package: an RPC status code plus a
description, per-stream and not fatal to the connection. -/
structure StreamError where
  code : Code
  desc : String
deriving DecidableEq, Repr

/-- A Go `error` value as seen by `ContextErr`: the two sentinel errors of
the `context` package are distinguished by identity (Go compares the
interface values, not the messages), every other error carries only its
message. -/
inductive GoError where
  | contextDeadlineExceeded
  | contextCanceled
  | other (msg : String)
deriving DecidableEq, Repr

/-- The `Error()` string of a `GoError`; the two context sentinels render
to the messages used by the Go standard library. -/
def GoError.message : GoError → String
  | .contextDeadlineExceeded => "context deadline exceeded"
  | .contextCanceled => "context canceled"
  | .other m => m

/-- `streamErrorf` of the transport package: builds a `StreamError` from a
code and a formatted description. -/
def streamErrorf (c : Code) (desc : String) : StreamError :=
  ⟨c, desc⟩

/-- `ContextErr` from `transport/go16.go`: converts an error from the
context package into a `StreamError`.  The `%v` verb renders the error's
message. -/
def ContextErr (err : GoError) : StreamError :=
  match err with
  | .contextDeadlineExceeded => streamErrorf .deadlineExceeded err.message
  | .contextCanceled => streamErrorf .canceled err.message
  | e => streamErrorf .internal ("Unexpected error from context packet: " ++ e.message)

/-- Modelled from the spec: `isReservedHeader` of the transport's header
utilities is not under `src/`; the spec lists the reserved header names
(always rejected as application metadata) as `content-type`,
`grpc-message-type`, `grpc-encoding`, `grpc-accept-encoding`,
`grpc-message`, `grpc-status`, `grpc-timeout` and `te`. -/
def isReservedHeader (hdr : String) : Bool :=
  hdr == "content-type" || hdr == "grpc-message-type" || hdr == "grpc-encoding" ||
  hdr == "grpc-accept-encoding" || hdr == "grpc-message" || hdr == "grpc-status" ||
  hdr == "grpc-timeout" || hdr == "te"

/-- Modelled from the spec: the table `httpStatusConvTab` of the client
transport is not under `src/`; the spec fixes 400→Internal,
401→Unauthenticated, 403→PermissionDenied, 404→Unimplemented,
429→Unavailable, 502→Unavailable, 503→Unavailable, 504→Unavailable, with
no entry for any other status. -/
def httpStatusConvTab (s : Nat) : Option Code :=
  if s = 400 then some .internal
  else if s = 401 then some .unauthenticated
  else if s = 403 then some .permissionDenied
  else if s = 404 then some .unimplemented
  else if s = 429 then some .unavailable
  else if s = 502 then some .unavailable
  else if s = 503 then some .unavailable
  else if s = 504 then some .unavailable
  else none

/-- Modelled from the spec: the RPC code the client surfaces for a non-200
HTTP `:status`; any status outside the table maps to Unknown. -/
def httpStatusToRPCCode (s : Nat) : Code :=
  (httpStatusConvTab s).getD .unknown

/-- Modelled from the spec: the `StreamError` surfaced to the application
when the peer replied with a non-200 `:status` before any grpc-status. -/
def httpStatusStreamError (s : Nat) : StreamError :=
  ⟨httpStatusToRPCCode s, "transport: received the unexpected http status " ++ toString s⟩

/-- Modelled from the spec: client processing of the `:status`
pseudo-header values carried by successive HEADERS frames of one response
when no grpc-status is present; the first non-200 value determines the
stream error via the HTTP→RPC table, a plain 200 produces none. -/
def respErrForStatuses : List Nat → Option StreamError
  | [] => none
  | s :: rest => if s = 200 then respErrForStatuses rest else some (httpStatusStreamError s)

/-- The terminal conditions a stream read can surface: remote end-stream
(`io.EOF`), a status-bearing `StreamError`, or any other Go error. -/
inductive TransportError where
  | eof
  | streamErr (e : StreamError)
  | other (msg : String)
deriving DecidableEq, Repr

/-- A chunk delivered into a stream's receive buffer: some bytes and/or a
terminal error (`recvMsg` of the transport package). -/
structure RecvMsg where
  data : List Nat
  err : Option TransportError
deriving DecidableEq, Repr

/-- Modelled from the spec: the read side of a stream's receive buffer
(`recvBufferReader`), a FIFO of chunks together with the sticky error that
poisons every later read once any error has been delivered. -/
structure RecvBufferReader where
  backlog : List RecvMsg
  lastErr : Option TransportError
deriving DecidableEq, Repr

/-- Modelled from the spec: the reader side of the transport appends a
chunk to the stream's receive buffer. -/
def RecvBufferReader.write (r : RecvBufferReader) (m : RecvMsg) : RecvBufferReader :=
  { r with backlog := r.backlog ++ [m] }

/-- Modelled from the spec: `Stream.Read` into a buffer of capacity `n`.
If an error was already delivered the same error is returned again with a
zero count; a chunk carrying an error yields that error (count zero) and
records it as sticky; otherwise up to `n` bytes of the front chunk are
consumed, the remainder staying at the front of the FIFO.  An empty
buffer would block; that suspension is modelled as a zero-byte, error-free
result that leaves the state unchanged. -/
def RecvBufferReader.read (r : RecvBufferReader) (n : Nat) :
    (Nat × Option TransportError) × RecvBufferReader :=
  match r.lastErr with
  | some e => ((0, some e), r)
  | none =>
    match r.backlog with
    | [] => ((0, none), r)
    | m :: rest =>
      match m.err with
      | some e => ((0, some e), ⟨rest, some e⟩)
      | none =>
        if m.data.length ≤ n then ((m.data.length, none), ⟨rest, none⟩)
        else ((n, none), ⟨⟨m.data.drop n, none⟩ :: rest, none⟩)

/-- An application-visible operation on a stream's receive side. -/
inductive StreamOp where
  | write (m : RecvMsg)
  | read (n : Nat)
deriving DecidableEq, Repr

/-- Runs a sequence of writes and reads against a receive buffer,
collecting the result of every read in order. -/
def RecvBufferReader.runOps (r : RecvBufferReader) :
    List StreamOp → RecvBufferReader × List (Nat × Option TransportError)
  | [] => (r, [])
  | .write m :: ops => (r.write m).runOps ops
  | .read n :: ops =>
      let res := r.read n
      let rest := res.2.runOps ops
      (rest.1, res.1 :: rest.2)

/-- The number of reads in a sequence of stream operations. -/
def countReads : List StreamOp → Nat
  | [] => 0
  | .write _ :: ops => countReads ops
  | .read _ :: ops => countReads ops + 1

/-- Modelled from the spec: the inbound flow-control window kept per
connection and per stream: `limit` (receiver-advertised), `pendingData`
(received, not yet consumed by the application), `pendingUpdate`
(consumed, not yet acknowledged via WINDOW_UPDATE) and `delta` (adaptive
BDP bump). -/
structure InFlow where
  limit : Nat
  pendingData : Nat
  pendingUpdate : Nat
  delta : Nat
deriving DecidableEq, Repr

/-- Modelled from the spec: `onData` of the inbound flow controller; a
DATA frame of `n` bytes is accepted only while the invariant
`pendingData + pendingUpdate ≤ limit + delta` is preserved, anything
beyond is a flow-control violation. -/
def InFlow.onData (f : InFlow) (n : Nat) : Except String InFlow :=
  if f.limit + f.delta < f.pendingData + f.pendingUpdate + n then
    .error "flow control violation"
  else
    .ok { f with pendingData := f.pendingData + n }

/-- The HTTP/2 error codes named by the spec's error-mapping table. -/
inductive Http2ErrCode where
  | noError
  | protocolError
  | internalError
  | flowControlError
  | settingsTimeout
  | frameSizeError
  | refusedStream
  | cancel
  | compressionError
  | connectError
  | enhanceYourCalm
  | inadequateSecurity
  | http11Required
deriving DecidableEq, Repr

/-- Modelled from the spec: `http2ErrConvTab`, the HTTP/2 error code →
RPC code table of the transport. -/
def http2ErrConvTab : Http2ErrCode → Code
  | .noError => .ok
  | .protocolError => .internal
  | .internalError => .internal
  | .flowControlError => .internal
  | .settingsTimeout => .internal
  | .frameSizeError => .internal
  | .refusedStream => .unavailable
  | .cancel => .canceled
  | .compressionError => .internal
  | .connectError => .internal
  | .enhanceYourCalm => .resourceExhausted
  | .inadequateSecurity => .permissionDenied
  | .http11Required => .internal

/-- Which endpoint is receiving: the client and server transports share
the inbound flow-control path and differ only in their drivers. -/
inductive Role where
  | server
  | client
deriving DecidableEq, Repr

/-- An outbound frame intent relevant to flow-control violations. -/
inductive OutFrame where
  | rstStream (streamID : Nat) (code : Http2ErrCode)
deriving DecidableEq, Repr

/-- Outcome of a receiver handling one inbound DATA frame: the updated
window, the frames queued on the control buffer, and the terminal status
code set on the stream (if any). -/
structure DataRecvResult where
  fc : InFlow
  emitted : List OutFrame
  statusCode : Option Code
deriving DecidableEq, Repr

/-- Modelled from the spec (scenario 4 and the error taxonomy): when a
DATA frame for stream `sid` overflows the stream's inbound window, the
receiving transport - client or server alike - queues
RST_STREAM(FLOW_CONTROL_ERROR) and terminates the stream with the RPC
code mapped from FLOW_CONTROL_ERROR; an in-window frame is booked into
`pendingData` without any frame or status. -/
def handleDataRecv (_role : Role) (fc : InFlow) (sid n : Nat) : DataRecvResult :=
  match fc.onData n with
  | .error _ =>
      ⟨fc, [.rstStream sid .flowControlError], some (http2ErrConvTab .flowControlError)⟩
  | .ok fc1 => ⟨fc1, [], none⟩

/-- Connection state of a transport: Reachable, Draining (GOAWAY
sent/received), Closing or Closed. -/
inductive TransportState where
  | reachable
  | draining
  | closing
  | closed
deriving DecidableEq, Repr

/-- `errStreamDrain`: the special `StreamError` returned to new streams
refused because the transport is draining. -/
def errStreamDrain : StreamError :=
  ⟨.unavailable, "the server stops accepting new RPCs"⟩

/-- `ErrConnClosing`: the error returned once the transport is closing or
closed. -/
def errConnClosing : StreamError :=
  ⟨.unavailable, "transport is closing"⟩

/-- A client-side stream: its HTTP/2 stream id and the read side of its
receive buffer. -/
structure ClientStream where
  id : Nat
  rd : RecvBufferReader
deriving DecidableEq, Repr

/-- Modelled from the spec: the client transport state that the claims
about stream creation, stream ids and graceful close depend on - the
connection state, the next stream id to allocate, the active stream list
and whether GOAWAY was queued. -/
structure ClientTransport where
  state : TransportState
  nextID : Nat
  activeStreams : List ClientStream
  goAwaySent : Bool
deriving DecidableEq, Repr

/-- A freshly dialed client transport: reachable, no streams, and stream
id 1 to be issued first. -/
def mkClientTransport : ClientTransport :=
  ⟨.reachable, 1, [], false⟩

/-- Modelled from the spec: client `newStream`.  While draining every new
stream is refused with `errStreamDrain`; while reachable the next odd
stream id is issued (ids advance by two per stream) and the stream is
registered with an empty receive buffer; a closing or closed transport
refuses with `errConnClosing`. -/
def ClientTransport.newStream (t : ClientTransport) :
    Except StreamError (ClientTransport × Nat) :=
  match t.state with
  | .draining => .error errStreamDrain
  | .reachable =>
      .ok (⟨.reachable, t.nextID + 2, t.activeStreams ++ [⟨t.nextID, ⟨[], none⟩⟩],
            t.goAwaySent⟩, t.nextID)
  | _ => .error errConnClosing

/-- Modelled from the spec: `GracefulClose` transitions a reachable
transport to Draining and queues GOAWAY; on any other state it is a
no-op. -/
def ClientTransport.gracefulClose (t : ClientTransport) : ClientTransport :=
  match t.state with
  | .reachable => { t with state := .draining, goAwaySent := true }
  | _ => t

/-- The results of `n` successive `newStream` calls (a failed call leaves
the transport unchanged). -/
def ClientTransport.newStreamResults (t : ClientTransport) : Nat → List (Except StreamError Nat)
  | 0 => []
  | n + 1 =>
    match t.newStream with
    | .ok (t1, sid) => .ok sid :: t1.newStreamResults n
    | .error e => .error e :: t.newStreamResults n

/-- The transport after `n` successive successful `newStream` calls
together with the stream ids they returned (stops early on failure). -/
def ClientTransport.allocStreams : ClientTransport → Nat → ClientTransport × List Nat
  | t, 0 => (t, [])
  | t, n + 1 =>
    match t.newStream with
    | .ok (t1, sid) =>
        let rest := t1.allocStreams n
        (rest.1, sid :: rest.2)
    | .error _ => (t, [])

/-- Modelled from the spec: whether a `Write` on stream `sid` is accepted.
Writes on an existing stream keep working while the transport is
reachable or draining - draining only refuses new streams. -/
def ClientTransport.canWrite (t : ClientTransport) (sid : Nat) : Bool :=
  (t.activeStreams.any (fun s => s.id == sid)) &&
  (t.state == .reachable || t.state == .draining)

/-- Modelled from the spec: the reader delivers a chunk into the receive
buffer of stream `sid`; the delivery path never consults the connection
state. -/
def ClientTransport.deliver (t : ClientTransport) (sid : Nat) (m : RecvMsg) : ClientTransport :=
  { t with activeStreams :=
      t.activeStreams.map (fun s => if s.id == sid then ⟨s.id, s.rd.write m⟩ else s) }

/-- Modelled from the spec: the application reads from stream `sid`; a
read on an unknown stream id returns nothing. -/
def ClientTransport.readStream (t : ClientTransport) (sid n : Nat) :
    (Nat × Option TransportError) × ClientTransport :=
  match t.activeStreams.find? (fun s => s.id == sid) with
  | none => ((0, none), t)
  | some s =>
      let res := s.rd.read n
      (res.1, { t with activeStreams :=
        t.activeStreams.map (fun s1 => if s1.id == sid then ⟨s1.id, res.2⟩ else s1) })

/-- Server keepalive enforcement policy: the least allowed interval
between peer pings and whether pings without active streams count. -/
structure EnforcementPolicy where
  minTime : Nat
  permitWithoutStream : Bool
deriving DecidableEq, Repr

/-- Modelled from the spec: the server-side keepalive enforcement state -
the policy, the arrival instant of the previous peer ping, the strike
counter, and the number of active streams. -/
structure KeepaliveEnforcer where
  policy : EnforcementPolicy
  lastPingAt : Nat
  pingStrikes : Nat
  activeStreams : Nat
deriving DecidableEq, Repr

/-- A GOAWAY frame intent: its HTTP/2 error code and whether the
connection is closed after sending it. -/
structure GoAwayFrame where
  code : Http2ErrCode
  closeConn : Bool
deriving DecidableEq, Repr

/-- Modelled from the spec: the server's handling of a peer PING at
instant `now`.  A ping arriving sooner than `MinTime` after the previous
one - while streams are present or `PermitWithoutStream` holds - earns a
strike; after two strikes the server sends GOAWAY(ENHANCE_YOUR_CALM) and
closes the connection. -/
def KeepaliveEnforcer.handlePing (k : KeepaliveEnforcer) (now : Nat) :
    KeepaliveEnforcer × Option GoAwayFrame :=
  let strikes :=
    if now - k.lastPingAt < k.policy.minTime ∧
        (0 < k.activeStreams ∨ k.policy.permitWithoutStream = true) then
      k.pingStrikes + 1
    else k.pingStrikes
  let k1 : KeepaliveEnforcer := { k with lastPingAt := now, pingStrikes := strikes }
  if 2 ≤ strikes then (k1, some ⟨.enhanceYourCalm, true⟩) else (k1, none)

/-- Processes a trace of peer ping instants, collecting every GOAWAY the
enforcement emits. -/
def KeepaliveEnforcer.runPings (k : KeepaliveEnforcer) :
    List Nat → KeepaliveEnforcer × List GoAwayFrame
  | [] => (k, [])
  | t :: ts =>
    let step1 := k.handlePing t
    let rest := step1.1.runPings ts
    (rest.1, step1.2.toList ++ rest.2)

/-- A ping trace obeys the policy when successive pings (measured from
`last`) are at least `minTime` apart. -/
def PingTraceObeys (minTime : Nat) : Nat → List Nat → Prop
  | _, [] => True
  | last, t :: ts => last + minTime ≤ t ∧ PingTraceObeys minTime t ts

/-- Modelled from the spec: one direction of the two-level flow-control
scheme, pairing the sender's send-quota pool with the receiver's inbound
window for the same scope (a stream or the connection): `q` is the
acquirable send quota, `inflight` the DATA bytes written but not yet
received, `fc` the receiver's inbound window and `updates` the
WINDOW_UPDATE amounts emitted by the receiver but not yet applied to the
sender's pool. -/
structure FlowPair where
  q : Nat
  inflight : Nat
  fc : InFlow
  updates : List Nat
deriving DecidableEq, Repr

/-- The initial coupled state for an advertised window of `limit` bytes:
the sender's quota equals the receiver's limit and nothing is in
flight. -/
def FlowPair.init (limit : Nat) : FlowPair :=
  ⟨limit, 0, ⟨limit, 0, 0, 0⟩, []⟩

/-- The events of one flow-controlled direction: the sender acquires
quota and writes DATA, the receiver books the DATA (`onData`), the
application consumes bytes (`onRead`, possibly emitting a WINDOW_UPDATE
at the quarter-window threshold) and the sender receives a
WINDOW_UPDATE. -/
inductive FlowEvent where
  | send (n : Nat)
  | recvData (n : Nat)
  | appRead (n : Nat)
  | recvUpdate
deriving DecidableEq, Repr

/-- Modelled from the spec: the transition of one flow-controlled
direction; an event whose precondition fails (over-acquiring quota,
a flow-control violation, reading more than is pending, applying an
absent update) yields none. -/
def FlowPair.step (p : FlowPair) : FlowEvent → Option FlowPair
  | .send n =>
      if n ≤ p.q then some { p with q := p.q - n, inflight := p.inflight + n } else none
  | .recvData n =>
      if n ≤ p.inflight then
        match p.fc.onData n with
        | .ok fc1 => some { p with inflight := p.inflight - n, fc := fc1 }
        | .error _ => none
      else none
  | .appRead n =>
      if n ≤ p.fc.pendingData then
        let fc1 : InFlow :=
          ⟨p.fc.limit, p.fc.pendingData - n, p.fc.pendingUpdate + n, p.fc.delta⟩
        if fc1.limit / 4 ≤ fc1.pendingUpdate then
          some ⟨p.q, p.inflight, ⟨fc1.limit, fc1.pendingData, 0, fc1.delta⟩,
                p.updates ++ [fc1.pendingUpdate]⟩
        else
          some { p with fc := fc1 }
      else none
  | .recvUpdate =>
      match p.updates with
      | [] => none
      | u :: rest => some { p with q := p.q + u, updates := rest }

/-- Runs a sequence of flow events, failing as soon as one event's
precondition fails. -/
def FlowPair.run (p : FlowPair) : List FlowEvent → Option FlowPair
  | [] => some p
  | e :: es =>
    match p.step e with
    | some p1 => p1.run es
    | none => none

/-- The conservation law coupling the sender's quota with the receiver's
window: quota, in-flight DATA, bytes pending in the receiver and
window-update amounts still in flight always add up to the advertised
window. -/
def FlowPair.balanced (p : FlowPair) : Prop :=
  p.q + p.inflight + p.fc.pendingData + p.fc.pendingUpdate + p.updates.sum =
    p.fc.limit + p.fc.delta

end GrpcTransport

namespace GrpcTransport

/-- C3: for every input error, `ContextErr` maps the context package's
deadline-exceeded sentinel to code DeadlineExceeded, the canceled sentinel
to code Canceled and any other error to code Internal, and the input
error's message appears in the resulting description (verbatim for the two
sentinels, after a fixed prefix otherwise). -/
theorem contextErr_mapping (e : GoError) :
    ((ContextErr e).code = match e with
      | .contextDeadlineExceeded => Code.deadlineExceeded
      | .contextCanceled => Code.canceled
      | .other _ => Code.internal) ∧
    ((ContextErr e).desc = e.message ∨
      (ContextErr e).desc = "Unexpected error from context packet: " ++ e.message) := by
  cases e with
  | contextDeadlineExceeded => exact ⟨rfl, Or.inl rfl⟩
  | contextCanceled => exact ⟨rfl, Or.inl rfl⟩
  | other m => exact ⟨rfl, Or.inr rfl⟩

/-- C9: `isReservedHeader` returns true for exactly the eight reserved
names, and false on ordinary application header names (sampled on `""`,
`"foo"` and `"authorization"`, the first two being the negative cases of
the repository's own test). -/
theorem isReservedHeader_exact :
    (∀ h : String, isReservedHeader h = true ↔
      (h = "content-type" ∨ h = "grpc-message-type" ∨ h = "grpc-encoding" ∨
       h = "grpc-accept-encoding" ∨ h = "grpc-message" ∨ h = "grpc-status" ∨
       h = "grpc-timeout" ∨ h = "te")) ∧
    isReservedHeader "" = false ∧
    isReservedHeader "foo" = false ∧
    isReservedHeader "authorization" = false := by
  refine ⟨fun h => ?_, by decide, by decide, by decide⟩
  simp only [isReservedHeader, Bool.or_eq_true, beq_iff_eq]
  tauto

/-- C2: the HTTP status → RPC code mapping used when a raw HTTP/2 peer
replies with a non-200 `:status` before any grpc-status is exactly the
fixed table (400 Internal, 401 Unauthenticated, 403 PermissionDenied,
404 Unimplemented, 429/502/503/504 Unavailable, anything else Unknown); a
trailers-only `:status=401` reply surfaces a StreamError with code
Unauthenticated, and a two-headers response whose second HEADERS frame
carries the non-200 status surfaces the same mapped code. -/
theorem httpToGRPCStatusMapping :
    httpStatusToRPCCode 400 = .internal ∧
    httpStatusToRPCCode 401 = .unauthenticated ∧
    httpStatusToRPCCode 403 = .permissionDenied ∧
    httpStatusToRPCCode 404 = .unimplemented ∧
    httpStatusToRPCCode 429 = .unavailable ∧
    httpStatusToRPCCode 502 = .unavailable ∧
    httpStatusToRPCCode 504 = .unavailable ∧
    httpStatusToRPCCode 503 = .unavailable ∧
    (∀ s : Nat, s ≠ 200 →
      s ≠ 400 → s ≠ 401 → s ≠ 403 → s ≠ 404 → s ≠ 429 → s ≠ 502 → s ≠ 503 → s ≠ 504 →
      httpStatusToRPCCode s = .unknown) ∧
    (respErrForStatuses [401]).map StreamError.code = some .unauthenticated ∧
    (∀ s : Nat, s ≠ 200 →
      (respErrForStatuses [s]).map StreamError.code = some (httpStatusToRPCCode s) ∧
      (respErrForStatuses [200, s]).map StreamError.code = some (httpStatusToRPCCode s)) := by
  refine ⟨rfl, rfl, rfl, rfl, rfl, rfl, rfl, rfl, ?_, by decide, ?_⟩
  · intro s h200 h400 h401 h403 h404 h429 h502 h503 h504
    simp [httpStatusToRPCCode, httpStatusConvTab, h400, h401, h403, h404, h429, h502, h503, h504]
  · intro s h200
    constructor <;> simp [respErrForStatuses, h200, httpStatusStreamError]

/-- Witness for C2 at concrete inputs: status 500 is not in the table and
maps to Unknown, and both the trailers-only and the two-headers shapes at
status 401 surface code Unauthenticated. -/
theorem httpToGRPCStatusMapping_witness :
    httpStatusToRPCCode 500 = .unknown ∧
    (respErrForStatuses [401]).map StreamError.code = some .unauthenticated ∧
    (respErrForStatuses [200, 401]).map StreamError.code = some .unauthenticated := by
  obtain ⟨-, -, -, -, -, -, -, -, hother, h401, hpair⟩ := httpToGRPCStatusMapping
  refine ⟨hother 500 (by decide) (by decide) (by decide) (by decide) (by decide) (by decide)
    (by decide) (by decide) (by decide), h401, ?_⟩
  have := (hpair 401 (by decide)).2
  simpa using this

/-- A read that surfaces an error records it as the reader's sticky error. -/
theorem read_err_lastErr (r : RecvBufferReader) (n : Nat) (e : TransportError)
    (h : ((r.read n).1).2 = some e) : ((r.read n).2).lastErr = some e := by
  rcases r with ⟨backlog, lastErr⟩
  cases lastErr with
  | some e0 => simpa [RecvBufferReader.read] using h
  | none =>
    cases backlog with
    | nil => simp [RecvBufferReader.read] at h
    | cons m rest =>
      cases herr : m.err with
      | some e1 =>
        simp [RecvBufferReader.read, herr] at h ⊢
        exact h
      | none =>
        by_cases hlen : m.data.length ≤ n
        · simp [RecvBufferReader.read, herr, hlen] at h
        · simp [RecvBufferReader.read, herr, hlen] at h

/-- Once the sticky error is set, every operation sequence leaves it in
place and every read in the sequence returns it with a zero byte count. -/
theorem runOps_sticky (ops : List StreamOp) :
    ∀ (r : RecvBufferReader) (e : TransportError), r.lastErr = some e →
      (r.runOps ops).2 = List.replicate (countReads ops) ((0 : Nat), some e) ∧
      (r.runOps ops).1.lastErr = some e := by
  induction ops with
  | nil =>
    intro r e h
    simp [RecvBufferReader.runOps, countReads, h]
  | cons op ops ih =>
    intro r e h
    cases op with
    | write m =>
      have hw : (r.write m).lastErr = some e := by
        simpa [RecvBufferReader.write] using h
      simpa [RecvBufferReader.runOps, countReads] using ih (r.write m) e hw
    | read n =>
      have hread : r.read n = ((0, some e), r) := by
        rcases r with ⟨backlog, lastErr⟩
        simp only at h
        simp [RecvBufferReader.read, h]
      obtain ⟨h1, h2⟩ := ih r e h
      simp [RecvBufferReader.runOps, countReads, hread, List.replicate_succ, h1, h2]

/-- C4: once a call to `Read` on a stream has returned an error, every
subsequent read - regardless of further data or different errors being
delivered to the receive buffer in between - returns the very same error
with a byte count of zero. -/
theorem read_error_sticky (r : RecvBufferReader) (n : Nat) (e : TransportError)
    (h : ((r.read n).1).2 = some e) (ops : List StreamOp) :
    (((r.read n).2).runOps ops).2 =
      List.replicate (countReads ops) ((0 : Nat), some e) :=
  (runOps_sticky ops _ e (read_err_lastErr r n e h)).1

/-- Witness for C4, replaying the repository's own test: after a chunk
carrying the error is read, a data chunk and a different error are
delivered, and the two following reads both return the first error with
count zero. -/
theorem read_error_sticky_witness :
    ((((⟨[⟨[5], some (.other "test error")⟩], none⟩ : RecvBufferReader).read 1).2).runOps
      [.write ⟨[5], none⟩, .write ⟨[5], some (.other "different error from first")⟩,
       .read 1, .read 1]).2 =
      List.replicate 2 ((0 : Nat), some (TransportError.other "test error")) :=
  read_error_sticky ⟨[⟨[5], some (.other "test error")⟩], none⟩ 1 (.other "test error") rfl
    [.write ⟨[5], none⟩, .write ⟨[5], some (.other "different error from first")⟩,
     .read 1, .read 1]

/-- C1: a DATA frame that exceeds the stream's inbound flow-control
window by a single byte makes the receiving transport - whether a server
facing a misbehaving client or a client facing a misbehaving server -
queue RST_STREAM(FLOW_CONTROL_ERROR) for that stream and terminate it
with the RPC code mapped from FLOW_CONTROL_ERROR, which is Internal. -/
theorem misbehavedSender_rst_and_internal (role : Role) (fc : InFlow) (sid n : Nat)
    (h : fc.pendingData + fc.pendingUpdate + n = fc.limit + fc.delta + 1) :
    handleDataRecv role fc sid n =
      ⟨fc, [.rstStream sid .flowControlError], some Code.internal⟩ ∧
    http2ErrConvTab .flowControlError = Code.internal := by
  refine ⟨?_, rfl⟩
  have hlt : fc.limit + fc.delta < fc.pendingData + fc.pendingUpdate + n := by omega
  simp [handleDataRecv, InFlow.onData, hlt, http2ErrConvTab]

/-- Witness for C1: a stream window of 65535 bytes already holding 65535
pending bytes receives one more byte; both the server and the client
instantiation emit RST_STREAM(FLOW_CONTROL_ERROR) and set status
Internal. -/
theorem misbehavedSender_rst_and_internal_witness :
    handleDataRecv .server ⟨65535, 65535, 0, 0⟩ 1 1 =
      ⟨⟨65535, 65535, 0, 0⟩, [.rstStream 1 .flowControlError], some Code.internal⟩ ∧
    handleDataRecv .client ⟨65535, 65535, 0, 0⟩ 3 1 =
      ⟨⟨65535, 65535, 0, 0⟩, [.rstStream 3 .flowControlError], some Code.internal⟩ :=
  ⟨(misbehavedSender_rst_and_internal .server ⟨65535, 65535, 0, 0⟩ 1 1 rfl).1,
   (misbehavedSender_rst_and_internal .client ⟨65535, 65535, 0, 0⟩ 3 1 rfl).1⟩

/-- Two pings, each arriving sooner than MinTime after the previous one
while pings are being counted, take the strike counter from zero to two
and make the server emit GOAWAY(ENHANCE_YOUR_CALM) with the connection
closing. -/
theorem keepalive_twoStrikes_goAway (k : KeepaliveEnforcer) (t1 t2 : Nat)
    (h0 : k.pingStrikes = 0)
    (hstreams : 0 < k.activeStreams ∨ k.policy.permitWithoutStream = true)
    (h1 : t1 - k.lastPingAt < k.policy.minTime)
    (h2 : t2 - t1 < k.policy.minTime) :
    ((k.handlePing t1).1.handlePing t2).2 = some ⟨.enhanceYourCalm, true⟩ := by
  rcases k with ⟨⟨minT, permit⟩, last, strikes, act⟩
  obtain rfl : strikes = 0 := h0
  have hc1 : t1 - last < minT ∧ (0 < act ∨ permit = true) := ⟨h1, hstreams⟩
  have hstep1 : KeepaliveEnforcer.handlePing ⟨⟨minT, permit⟩, last, 0, act⟩ t1 =
      (⟨⟨minT, permit⟩, t1, 1, act⟩, none) := by
    simp only [KeepaliveEnforcer.handlePing]
    rw [if_pos hc1]
    norm_num
  rw [hstep1]
  have hc2 : t2 - t1 < minT ∧ (0 < act ∨ permit = true) := ⟨h2, hstreams⟩
  simp only [KeepaliveEnforcer.handlePing]
  rw [if_pos hc2]
  norm_num

/-- A ping trace that respects MinTime never increments the strike
counter, so the enforcement emits no GOAWAY at all. -/
theorem keepalive_noGoAway_ofObeys : ∀ (ts : List Nat) (k : KeepaliveEnforcer),
    k.pingStrikes = 0 → PingTraceObeys k.policy.minTime k.lastPingAt ts →
    (k.runPings ts).2 = [] := by
  intro ts
  induction ts with
  | nil => intro k _ _; rfl
  | cons t ts ih =>
    intro k h0 hob
    obtain ⟨hgap, hrest⟩ := hob
    rcases k with ⟨⟨minT, permit⟩, last, strikes, act⟩
    obtain rfl : strikes = 0 := h0
    have hviol : ¬(t - last < minT ∧ (0 < act ∨ permit = true)) := by
      rintro ⟨hlt, -⟩
      simp only [PingTraceObeys] at hgap
      omega
    have hstep : KeepaliveEnforcer.handlePing ⟨⟨minT, permit⟩, last, 0, act⟩ t =
        (⟨⟨minT, permit⟩, t, 0, act⟩, none) := by
      simp only [KeepaliveEnforcer.handlePing]
      rw [if_neg hviol]
      norm_num
    simp only [KeepaliveEnforcer.runPings, hstep]
    simpa using ih ⟨⟨minT, permit⟩, t, 0, act⟩ rfl hrest

/-- C6: with an EnforcementPolicy MinTime in force, a peer whose pings
arrive faster than MinTime (while streams are present or
PermitWithoutStream holds) earns a strike per early ping, and on the
second strike the server emits GOAWAY(ENHANCE_YOUR_CALM) and closes the
connection; a peer whose ping intervals are all at least MinTime is never
sent such a GOAWAY. -/
theorem keepaliveEnforcement :
    (∀ (k : KeepaliveEnforcer) (t1 t2 : Nat),
      k.pingStrikes = 0 →
      (0 < k.activeStreams ∨ k.policy.permitWithoutStream = true) →
      t1 - k.lastPingAt < k.policy.minTime →
      t2 - t1 < k.policy.minTime →
      ((k.handlePing t1).1.handlePing t2).2 = some ⟨.enhanceYourCalm, true⟩) ∧
    (∀ (k : KeepaliveEnforcer) (ts : List Nat),
      k.pingStrikes = 0 → PingTraceObeys k.policy.minTime k.lastPingAt ts →
      (k.runPings ts).2 = []) :=
  ⟨fun k t1 t2 h0 hs h1 h2 => keepalive_twoStrikes_goAway k t1 t2 h0 hs h1 h2,
   fun k ts h0 hob => keepalive_noGoAway_ofObeys ts k h0 hob⟩

/-- Witness for C6: a server with MinTime 2 and PermitWithoutStream: an
abusive client pinging at instants 1 and 2 draws GOAWAY(ENHANCE_YOUR_CALM)
on the second ping, while an obeying client pinging at instants 2, 4 and
6 never does. -/
theorem keepaliveEnforcement_witness :
    ((((⟨⟨2, true⟩, 0, 0, 0⟩ : KeepaliveEnforcer).handlePing 1).1.handlePing 2).2 =
      some ⟨.enhanceYourCalm, true⟩) ∧
    (((⟨⟨2, true⟩, 0, 0, 0⟩ : KeepaliveEnforcer).runPings [2, 4, 6]).2 = []) := by
  obtain ⟨habuse, hobey⟩ := keepaliveEnforcement
  refine ⟨habuse _ 1 2 rfl (Or.inr rfl) (by norm_num) (by norm_num),
    hobey _ [2, 4, 6] rfl ?_⟩
  exact ⟨by norm_num, by norm_num, by norm_num, trivial⟩

/-- Every flow event preserves the conservation law coupling quota,
in-flight bytes and the receiver window. -/
theorem step_balanced (p p1 : FlowPair) (e : FlowEvent)
    (hs : p.step e = some p1) (hb : p.balanced) : p1.balanced := by
  cases e with
  | send n =>
    simp only [FlowPair.step] at hs
    split_ifs at hs with hn
    · rw [Option.some_inj] at hs
      subst hs
      unfold FlowPair.balanced at hb ⊢
      simp only
      omega
  | recvData n =>
    simp only [FlowPair.step, InFlow.onData] at hs
    split_ifs at hs with hn hover
    · rw [Option.some_inj] at hs
      subst hs
      unfold FlowPair.balanced at hb ⊢
      simp only
      omega
  | appRead n =>
    simp only [FlowPair.step] at hs
    split_ifs at hs with hn hthr
    · rw [Option.some_inj] at hs
      subst hs
      unfold FlowPair.balanced at hb ⊢
      simp only [List.sum_append, List.sum_cons, List.sum_nil]
      omega
    · rw [Option.some_inj] at hs
      subst hs
      unfold FlowPair.balanced at hb ⊢
      simp only
      omega
  | recvUpdate =>
    simp only [FlowPair.step] at hs
    cases hu : p.updates with
    | nil => rw [hu] at hs; cases hs
    | cons u rest =>
      rw [hu] at hs
      rw [Option.some_inj] at hs
      subst hs
      unfold FlowPair.balanced at hb ⊢
      rw [hu] at hb
      simp only [List.sum_cons] at hb ⊢
      omega

/-- Running any admissible event sequence preserves the conservation
law. -/
theorem run_balanced : ∀ (evs : List FlowEvent) (p p1 : FlowPair),
    p.run evs = some p1 → p.balanced → p1.balanced := by
  intro evs
  induction evs with
  | nil =>
    intro p p1 h hb
    simp only [FlowPair.run, Option.some_inj] at h
    subst h
    exact hb
  | cons e es ih =>
    intro p p1 h hb
    simp only [FlowPair.run] at h
    cases hstep : p.step e with
    | none => rw [hstep] at h; cases h
    | some p2 =>
      rw [hstep] at h
      exact ih p2 p1 h (step_balanced p p2 e hstep hb)

/-- C8: in every state reachable from a freshly advertised window, the
sender's acquirable quota equals the receiver's window estimate
(limit minus pendingUpdate, plus the BDP delta) minus the bytes and
window updates in flight; once traffic quiesces - nothing pending, no
delta, nothing in flight in either frame direction - the quota is exactly
the receiver's limit minus its pendingUpdate.  The model is one
flow-controlled direction of one scope, so it instantiates to each client
stream paired with its server stream and to the two connection-level
windows, in both directions. -/
theorem flowQuota_matchesWindowEstimate (limit : Nat) (evs : List FlowEvent) (p : FlowPair)
    (h : (FlowPair.init limit).run evs = some p) :
    p.q + p.inflight + p.fc.pendingData + p.fc.pendingUpdate + p.updates.sum =
      p.fc.limit + p.fc.delta ∧
    (p.inflight = 0 → p.fc.pendingData = 0 → p.fc.delta = 0 → p.updates = [] →
      p.q = p.fc.limit - p.fc.pendingUpdate) := by
  have hb : p.balanced := by
    refine run_balanced evs (FlowPair.init limit) p h ?_
    unfold FlowPair.balanced FlowPair.init
    simp
  unfold FlowPair.balanced at hb
  refine ⟨hb, fun h1 h2 h3 h4 => ?_⟩
  rw [h1, h2, h3, h4] at hb
  simp only [List.sum_nil] at hb
  omega

/-- Witness for C8: with an 8-byte window, sending 8 bytes, receiving
them, consuming them (which emits a WINDOW_UPDATE of 8) and applying the
update returns to the initial state, where the quota equals the limit
minus pendingUpdate. -/
theorem flowQuota_matchesWindowEstimate_witness :
    (FlowPair.init 8).run [.send 8, .recvData 8, .appRead 8, .recvUpdate] =
      some (FlowPair.init 8) ∧
    (FlowPair.init 8).q = (FlowPair.init 8).fc.limit - (FlowPair.init 8).fc.pendingUpdate := by
  have hrun : (FlowPair.init 8).run [.send 8, .recvData 8, .appRead 8, .recvUpdate] =
      some (FlowPair.init 8) := by decide
  exact ⟨hrun, (flowQuota_matchesWindowEstimate 8 _ _ hrun).2 rfl rfl rfl rfl⟩

/-- On a reachable transport, `n` successive `newStream` calls hand out
the ids `nextID, nextID + 2, ...` in order. -/
theorem allocStreams_ids : ∀ (n : Nat) (t : ClientTransport), t.state = .reachable →
    (t.allocStreams n).2 = (List.range n).map (fun k => t.nextID + 2 * k) := by
  intro n
  induction n with
  | zero => intro t _; rfl
  | succ n ih =>
    intro t ht
    rcases t with ⟨st, nid, streams, ga⟩
    obtain rfl : st = TransportState.reachable := ht
    have hstep : ClientTransport.newStream ⟨.reachable, nid, streams, ga⟩ =
        .ok (⟨.reachable, nid + 2, streams ++ [⟨nid, ⟨[], none⟩⟩], ga⟩, nid) := rfl
    simp only [ClientTransport.allocStreams, hstep]
    rw [ih _ rfl]
    rw [List.range_succ_eq_map, List.map_cons, List.map_map]
    refine List.cons_eq_cons.mpr ⟨by simp, ?_⟩
    refine List.map_congr_left (fun a _ => ?_)
    simp only [Function.comp_apply]
    omega

/-- C7: on one connection the client's successive `newStream` calls issue
exactly the odd stream ids 1, 3, 5, ...: the id list of the first `n`
streams is the range map k ↦ 2k+1, hence strictly increasing, all odd,
and the i-th created stream (zero-based) carries id 2i+1. -/
theorem clientStreamIds (n : Nat) :
    (mkClientTransport.allocStreams n).2 = (List.range n).map (fun k => 2 * k + 1) ∧
    List.Pairwise (· < ·) (mkClientTransport.allocStreams n).2 ∧
    (∀ x ∈ (mkClientTransport.allocStreams n).2, x % 2 = 1) ∧
    (∀ i : Nat, i < n → (mkClientTransport.allocStreams n).2.get? i = some (2 * i + 1)) := by
  have h1 : (mkClientTransport.allocStreams n).2 = (List.range n).map (fun k => 2 * k + 1) := by
    rw [allocStreams_ids n mkClientTransport rfl]
    refine List.map_congr_left (fun a _ => ?_)
    show 1 + 2 * a = 2 * a + 1
    omega
  refine ⟨h1, ?_, ?_, ?_⟩
  · rw [h1]
    exact (List.pairwise_lt_range n).map _ (fun a b hab => by omega)
  · intro x hx
    rw [h1] at hx
    obtain ⟨k, -, rfl⟩ := List.mem_map.mp hx
    omega
  · intro i hi
    rw [h1, List.get?_map, List.get?_range hi]
    rfl

/-- Witness for C7: the first three streams get ids 1, 3, 5, and the
second created stream has id 3. -/
theorem clientStreamIds_witness :
    (mkClientTransport.allocStreams 3).2 = [1, 3, 5] ∧
    (mkClientTransport.allocStreams 3).2.get? 1 = some 3 := by
  obtain ⟨h1, -, -, hget⟩ := clientStreamIds 3
  exact ⟨by rw [h1]; rfl, hget 1 (by norm_num)⟩

/-- A draining transport answers every one of any number of successive
`newStream` calls with `errStreamDrain`. -/
theorem newStreamResults_draining (t : ClientTransport) (h : t.state = .draining) :
    ∀ k, t.newStreamResults k = List.replicate k (.error errStreamDrain) := by
  have hd : t.newStream = .error errStreamDrain := by
    rcases t with ⟨st, nid, streams, ga⟩
    obtain rfl : st = TransportState.draining := h
    rfl
  intro k
  induction k with
  | zero => rfl
  | succ n ih =>
    simp only [ClientTransport.newStreamResults, hd, ih, List.replicate_succ]

/-- Updating the stream with id `sid` in a stream list whose other
members all carry different ids rewrites exactly the last element. -/
theorem mapUpdate_fresh (sid : Nat) (g : ClientStream → ClientStream) (x : ClientStream)
    (hx : x.id = sid) :
    ∀ streams : List ClientStream, (∀ s ∈ streams, s.id ≠ sid) →
      (streams ++ [x]).map (fun s => if s.id == sid then g s else s) = streams ++ [g x] := by
  intro streams
  induction streams with
  | nil =>
    intro _
    simp [hx]
  | cons a l ih =>
    intro hfresh
    have ha : ¬(a.id = sid) := hfresh a (List.mem_cons_self a l)
    simp only [List.cons_append, List.map_cons]
    rw [if_neg (by simp [ha]), ih (fun s hs => hfresh s (List.mem_cons_of_mem a hs))]

/-- Looking up the stream with id `sid` in such a list finds exactly the
last element. -/
theorem findStream_fresh (sid : Nat) (x : ClientStream) (hx : x.id = sid) :
    ∀ streams : List ClientStream, (∀ s ∈ streams, s.id ≠ sid) →
      (streams ++ [x]).find? (fun s => s.id == sid) = some x := by
  intro streams
  induction streams with
  | nil =>
    intro _
    simp [List.find?, hx]
  | cons a l ih =>
    intro hfresh
    have ha : ¬(a.id = sid) := hfresh a (List.mem_cons_self a l)
    rw [List.cons_append, List.find?_cons_of_neg _ (by simp [ha])]
    exact ih (fun s hs => hfresh s (List.mem_cons_of_mem a hs))

/-- Delivering a chunk to the freshly appended stream only touches that
stream's receive buffer. -/
theorem deliver_fresh (st : TransportState) (nid2 : Nat) (ga : Bool)
    (streams : List ClientStream) (sid : Nat) (rd : RecvBufferReader) (m : RecvMsg)
    (hfresh : ∀ s ∈ streams, s.id ≠ sid) :
    ClientTransport.deliver ⟨st, nid2, streams ++ [⟨sid, rd⟩], ga⟩ sid m =
      ⟨st, nid2, streams ++ [⟨sid, rd.write m⟩], ga⟩ := by
  simp only [ClientTransport.deliver]
  congr 1
  exact mapUpdate_fresh sid (fun s => ⟨s.id, s.rd.write m⟩) ⟨sid, rd⟩ rfl streams hfresh

/-- Reading from the freshly appended stream reads from its buffer and
only rewrites that stream in the list. -/
theorem readStream_fresh (st : TransportState) (nid2 : Nat) (ga : Bool)
    (streams : List ClientStream) (sid : Nat) (rd : RecvBufferReader) (n : Nat)
    (hfresh : ∀ s ∈ streams, s.id ≠ sid) :
    ClientTransport.readStream ⟨st, nid2, streams ++ [⟨sid, rd⟩], ga⟩ sid n =
      ((rd.read n).1, ⟨st, nid2, streams ++ [⟨sid, (rd.read n).2⟩], ga⟩) := by
  simp only [ClientTransport.readStream]
  rw [findStream_fresh sid ⟨sid, rd⟩ rfl streams hfresh]
  simp only
  congr 1
  congr 1
  exact mapUpdate_fresh sid (fun s => ⟨s.id, (rd.read n).2⟩) ⟨sid, rd⟩ rfl streams hfresh

/-- C5: after `GracefulClose` on a client transport, every one of any
number of subsequent `newStream` calls fails with the StreamDrain error,
while a stream created before the close is still writable and still reads
its full response followed by EOF. -/
theorem gracefulClose_behavior (t0 t1 : ClientTransport) (sid : Nat) (resp : List Nat)
    (h0 : t0.state = .reachable)
    (hfresh : ∀ s ∈ t0.activeStreams, s.id ≠ t0.nextID)
    (hnew : t0.newStream = .ok (t1, sid)) :
    (∀ k, t1.gracefulClose.newStreamResults k =
      List.replicate k (.error errStreamDrain)) ∧
    t1.gracefulClose.canWrite sid = true ∧
    (((t1.gracefulClose.deliver sid ⟨resp, none⟩).deliver sid ⟨[], some .eof⟩).readStream
        sid resp.length).1 = (resp.length, none) ∧
    (((((t1.gracefulClose.deliver sid ⟨resp, none⟩).deliver sid ⟨[], some .eof⟩).readStream
        sid resp.length).2).readStream sid 1).1 = (0, some .eof) := by
  rcases t0 with ⟨st0, nid, streams, ga⟩
  obtain rfl : st0 = TransportState.reachable := h0
  have hstep : ClientTransport.newStream ⟨.reachable, nid, streams, ga⟩ =
      .ok (⟨.reachable, nid + 2, streams ++ [⟨nid, ⟨[], none⟩⟩], ga⟩, nid) := rfl
  rw [hstep, Except.ok.injEq, Prod.mk.injEq] at hnew
  obtain ⟨ht, rfl⟩ := hnew
  subst ht
  have hfresh1 : ∀ s ∈ streams, s.id ≠ nid := hfresh
  have hg : ClientTransport.gracefulClose
        ⟨.reachable, nid + 2, streams ++ [⟨nid, ⟨[], none⟩⟩], ga⟩ =
      ⟨.draining, nid + 2, streams ++ [⟨nid, ⟨[], none⟩⟩], true⟩ := rfl
  rw [hg]
  refine ⟨newStreamResults_draining _ rfl, ?_, ?_⟩
  · simp [ClientTransport.canWrite, List.any_append]
  · rw [deliver_fresh _ _ _ _ _ _ _ hfresh1, deliver_fresh _ _ _ _ _ _ _ hfresh1]
    have hrd : ((⟨[], none⟩ : RecvBufferReader).write ⟨resp, none⟩).write ⟨[], some .eof⟩ =
        ⟨[⟨resp, none⟩, ⟨[], some .eof⟩], none⟩ := by
      simp [RecvBufferReader.write]
    rw [hrd, readStream_fresh _ _ _ _ _ _ _ hfresh1]
    have hread1 : (⟨[⟨resp, none⟩, ⟨[], some .eof⟩], none⟩ : RecvBufferReader).read resp.length =
        ((resp.length, none), ⟨[⟨[], some .eof⟩], none⟩) := by
      simp [RecvBufferReader.read]
    rw [hread1]
    refine ⟨rfl, ?_⟩
    rw [readStream_fresh _ _ _ _ _ _ _ hfresh1]
    rfl

/-- Witness for C5 on a freshly dialed transport: stream 1 is created,
the transport is gracefully closed, three subsequent `newStream` calls
all fail with StreamDrain, stream 1 stays writable, and reads its two
response bytes followed by EOF. -/
theorem gracefulClose_behavior_witness :
    (∀ k, (ClientTransport.gracefulClose
        ⟨.reachable, 3, [⟨1, ⟨[], none⟩⟩], false⟩).newStreamResults k =
      List.replicate k (.error errStreamDrain)) ∧
    (ClientTransport.gracefulClose
        ⟨.reachable, 3, [⟨1, ⟨[], none⟩⟩], false⟩).canWrite 1 = true ∧
    ((((ClientTransport.gracefulClose
        ⟨.reachable, 3, [⟨1, ⟨[], none⟩⟩], false⟩).deliver 1 ⟨[7, 8], none⟩).deliver 1
        ⟨[], some .eof⟩).readStream 1 2).1 = (2, none) ∧
    (((((ClientTransport.gracefulClose
        ⟨.reachable, 3, [⟨1, ⟨[], none⟩⟩], false⟩).deliver 1 ⟨[7, 8], none⟩).deliver 1
        ⟨[], some .eof⟩).readStream 1 2).2.readStream 1 1).1 = (0, some .eof) :=
  gracefulClose_behavior mkClientTransport ⟨.reachable, 3, [⟨1, ⟨[], none⟩⟩], false⟩ 1 [7, 8]
    rfl (by intro s hs; cases hs) rfl

end GrpcTransport
